import Mathlib

/-!
Shallow embedding of `src/lib/core/MantraData.js`, the dot-delimited
path-resolution core of the Mantra repository, together with theorems
checking the specification's claims about it.

JavaScript strings are modelled as Lean `String` (a structure wrapping
`List Char`).  The JS built-ins the source relies on — `String.prototype.split`
with a one-character separator, `String.prototype.replace` with the two
concrete regexes appearing in the source, `Number` string coercion together
with `Number.isNaN`, and `Object.prototype.hasOwnProperty` — are given
explicit executable models below.  Thrown JS exceptions are modelled with
`Except JsError`; plain objects used as string-keyed maps are modelled as
association lists.
-/

namespace Mantra

/-- A thrown JavaScript exception: `new Error(message)`, or the `TypeError`
raised by reading a property of `undefined`/`null`. -/
inductive JsError : Type where
  | error (message : String)
  | typeError
deriving Repr, DecidableEq

/-! ## JS string built-ins -/

/-- Boolean test that the first list is an initial run of the second. -/
def startsWithL : List Char → List Char → Bool
  | [], _ => true
  | _ :: _, [] => false
  | p :: ps, c :: cs => p == c && startsWithL ps cs

/-- `String.prototype.split` with a one-character separator, on the underlying
character list: splitting never yields an empty list (`"".split('.')` is
`[""]`), and empty fields between, before, or after separators are kept. -/
def splitList (sep : Char) : List Char → List (List Char)
  | [] => [[]]
  | c :: rest =>
    match splitList sep rest with
    | [] => [[c]]
    | h :: t => if c = sep then [] :: h :: t else (c :: h) :: t

/-- `s.split(sep)` for a one-character separator. -/
def jsSplit (sep : Char) (s : String) : List String :=
  (splitList sep s.data).map (fun l => String.mk l)

/-- Characters matched by `.` in a JS regex without the `s` flag: every
character except the four line terminators. -/
def jsDotChar (c : Char) : Bool :=
  c.toNat != 10 && c.toNat != 13 && c.toNat != 0x2028 && c.toNat != 0x2029

/-- Characters that stand for themselves when interpolated into a JS regex
pattern: everything except the syntax characters backslash, caret, dollar,
dot, star, plus, question mark, parentheses, square brackets, braces and the
vertical bar.  A segment made of such characters is matched literally by the
regex `_trimPath` builds; segments containing syntax characters change the
meaning of the pattern (or make the `RegExp` constructor throw) and are
outside the scope of the literal trim model below. -/
def regexLiteralChar (c : Char) : Bool :=
  !(c == '\\' || c == '^' || c == '$' || c == '.' || c == '*' || c == '+' ||
    c == '?' || c == '(' || c == ')' || c == '[' || c == ']' ||
    c == '\x7b' || c == '\x7d' || c == '|')

/-- Occurrence test: some suffix of the second list starts with `pat`. -/
def substrOccurs (pat : List Char) : List Char → Bool
  | [] => pat.isEmpty
  | c :: cs => startsWithL pat (c :: cs) || substrOccurs pat cs

/-- Global replace of the regex `(pat).?` by the empty string, as
`_trimPath` builds it from a segment `pat` all of whose characters satisfy
`regexLiteralChar` (so the interpolated pattern matches `pat` literally):
scanning left to right, each occurrence of `pat` plus at most one following
`.`-matchable character is deleted and scanning resumes after the deleted
match; an empty match (possible only when `pat` is empty and the next
character is a line terminator) advances one position, keeping that
character.  The `fuel` argument, instantiated with the length of the string,
only makes the recursion structural: every recursive call shortens the
string, so fuel is never exhausted first. -/
def trimAuxF (pat : List Char) : Nat → List Char → List Char
  | _, [] => []
  | 0, l => l
  | n + 1, c :: cs =>
    if startsWithL pat (c :: cs) then
      match pat, (c :: cs).drop pat.length with
      | _, [] => []
      | [], d :: ds => if jsDotChar d then trimAuxF pat n ds else d :: trimAuxF pat n ds
      | _ :: _, d :: ds => if jsDotChar d then trimAuxF pat n ds else trimAuxF pat n (d :: ds)
    else c :: trimAuxF pat n cs

/-- `s.replace(new RegExp(`(pat).?`, 'g'), '')`. -/
def jsReplaceTrim (pat s : String) : String :=
  String.mk (trimAuxF pat.data s.data.length s.data)

/-- Character-wise string replacement, modelling `replace` with a global
one-character regex class such as `/[.]/g` or `/\//g`. -/
def mapChars (f : Char → Char) (s : String) : String := String.mk (s.data.map f)

/-! ## JS `Number` string coercion (NaN test)

`Number(value)` on a string follows the `StringNumericLiteral` grammar: after
stripping surrounding whitespace the string must be empty (yielding `0`), a
radix literal (`0x…`, `0o…`, `0b…`, no sign allowed), or an optionally signed
decimal literal / `Infinity`; otherwise the result is `NaN`. -/

/-- Whitespace and line-terminator characters stripped by `Number()` string
coercion (the common ones; exotic Unicode `Zs` members beyond NBSP and the
BOM are omitted — none can appear in resolver inputs considered here). -/
def isJsSpace (c : Char) : Bool :=
  c.toNat == 9 || c.toNat == 10 || c.toNat == 11 || c.toNat == 12 || c.toNat == 13 ||
  c.toNat == 32 || c.toNat == 160 || c.toNat == 0x2028 || c.toNat == 0x2029 ||
  c.toNat == 0xfeff

/-- Strip leading and trailing JS whitespace. -/
def jsTrim (l : List Char) : List Char :=
  ((l.dropWhile isJsSpace).reverse.dropWhile isJsSpace).reverse

/-- Decimal digit `0`–`9`. -/
def decDigit (c : Char) : Bool := 48 ≤ c.toNat && c.toNat ≤ 57

/-- Hexadecimal digit. -/
def hexDigit (c : Char) : Bool :=
  decDigit c || (97 ≤ c.toNat && c.toNat ≤ 102) || (65 ≤ c.toNat && c.toNat ≤ 70)

/-- Octal digit. -/
def octDigit (c : Char) : Bool := 48 ≤ c.toNat && c.toNat ≤ 55

/-- Binary digit. -/
def binDigit (c : Char) : Bool := c.toNat == 48 || c.toNat == 49

/-- Non-empty run of digits recognised by `p`. -/
def digitRun (p : Char → Bool) (l : List Char) : Bool := !l.isEmpty && l.all p

/-- Exponent digits with an optional sign. -/
def isSignedDigits (l : List Char) : Bool :=
  match l with
  | c :: r => if c == '+' || c == '-' then digitRun decDigit r else digitRun decDigit l
  | [] => false

/-- An optional exponent part terminating the literal. -/
def isExpPartOk : List Char → Bool
  | [] => true
  | c :: r => (c == 'e' || c == 'E') && isSignedDigits r

/-- Unsigned decimal number: digits, optional fraction, optional exponent. -/
def isDecNumber (l : List Char) : Bool :=
  let intPart := l.takeWhile decDigit
  let r1 := l.dropWhile decDigit
  match r1 with
  | '.' :: r2 =>
    let fracPart := r2.takeWhile decDigit
    let r3 := r2.dropWhile decDigit
    (!intPart.isEmpty || !fracPart.isEmpty) && isExpPartOk r3
  | _ => !intPart.isEmpty && isExpPartOk r1

/-- `StrUnsignedDecimalLiteral`: `Infinity` or a decimal number. -/
def isUnsignedDec (l : List Char) : Bool :=
  l == "Infinity".data || isDecNumber l

/-- Optionally signed decimal literal. -/
def isSignedDec (l : List Char) : Bool :=
  match l with
  | c :: r => if c == '+' || c == '-' then isUnsignedDec r else isUnsignedDec l
  | [] => isUnsignedDec []

/-- Unsigned radix literal: `0x`/`0X`, `0o`/`0O` or `0b`/`0B` plus digits. -/
def isRadixLiteral : List Char → Bool
  | '0' :: c :: r =>
    ((c == 'x' || c == 'X') && digitRun hexDigit r) ||
    ((c == 'o' || c == 'O') && digitRun octDigit r) ||
    ((c == 'b' || c == 'B') && digitRun binDigit r)
  | _ => false

/-- The whole (already trimmed) string is a `StrNumericLiteral`. -/
def isStrNumericLiteral (l : List Char) : Bool :=
  l.isEmpty || isRadixLiteral l || isSignedDec l

/-- `Number.isNaN(Number(s))` for a string `s`. -/
def jsNumberIsNaN (s : String) : Bool := !(isStrNumericLiteral (jsTrim s.data))

/-! ## JS objects as string-keyed maps -/

/-- A plain JS object used as a string-keyed map. -/
abbrev JsObj (α : Type) := List (String × α)

/-- `Object.prototype.hasOwnProperty.call(o, k)`. -/
def objHas {α : Type} (o : JsObj α) (k : String) : Bool :=
  (o.find? (fun p => p.1 == k)).isSome

/-- `o[k]`, `none` when the key is absent (JS `undefined`). -/
def objGet {α : Type} (o : JsObj α) (k : String) : Option α :=
  (o.find? (fun p => p.1 == k)).map Prod.snd

/-! ## Data model

Mirrors `MantraSchema` and the fields of `MantraData` that the resolver
reads or writes.  `Option` models a JS field holding `undefined`/`null`.
The `fields` and `model` members of `MantraSchema`, and the UI base-class
machinery (`BASE_CLASSES`, `_baseClass`, `setComponent`), are never read by
the resolution logic under verification and are omitted. -/

/-- A mantra action object, as in `DEFAULT_ACTIONS` or `schema.actions`. -/
structure ActionDescriptor where
  name : String
  needFetch : Bool
deriving Repr, DecidableEq

/-- An entity schema (`MantraSchema`): `relationships` is an optional ordered
list of child schemas, `actions` an optional object from action names to
action descriptors. -/
inductive Schema : Type where
  | mk : String → Option (List Schema) → Option (JsObj ActionDescriptor) → Schema

/-- The schema's `name` field. -/
def Schema.name : Schema → String
  | .mk n _ _ => n

/-- The schema's `relationships` field. -/
def Schema.relationships : Schema → Option (List Schema)
  | .mk _ r _ => r

/-- The schema's `actions` field. -/
def Schema.actions : Schema → Option (JsObj ActionDescriptor)
  | .mk _ _ a => a

/-- A parent entity snapshot pushed by `_setRelationship`. -/
structure Parent where
  schema : Option Schema
  name : String
  id : String

/-- The `model` descriptor optionally carried by a component. -/
structure JsModel where
  name : Option String

/-- The slice of a component object that `MantraData` reads: its optional
`model` and its `hasModel` flag (`false` models `undefined`, as on the
initial empty component object `{}`). -/
structure Component where
  model : Option JsModel
  hasModel : Bool

/-- The mutable resolution context: the fields of a `MantraData` object. -/
structure MantraData where
  path : String
  component : Component
  parents : List Parent
  name : String
  schema : Option Schema
  id : String
  action : Option ActionDescriptor
  context : String
  endpoint : String
  _path : String
  aliasName : String

/-- The `MantraData` constructor's field initialisation (the `alias` field of
the source is called `aliasName` here because `alias` is reserved in Lean). -/
def MantraData.init (path : String) : MantraData :=
  { path := "", component := { model := none, hasModel := false }, parents := [],
    name := "", schema := none, id := "", action := none, context := "",
    endpoint := "", _path := path, aliasName := "" }

/-- The schemas module returned by `MantraPlugin.getSchemasModule()`,
passed explicitly since the store is external to the resolver. -/
abbrev SchemasModule := JsObj Schema

/-! ## Resolution operations -/

/-- `MantraData.getFirstPath`: split by dots, return the first member. -/
def getFirstPath (path : String) : String :=
  match jsSplit '.' path with
  | [] => ""
  | s :: _ => s

/-- `_isSchema`: does the schemas module own a property under `name`? -/
def _isSchema (schemas : SchemasModule) (name : String) : Bool :=
  objHas schemas name

/-- `_setName`. -/
def _setName (name : String) (d : MantraData) : MantraData :=
  { d with name := name }

/-- `_setBaseSchema`. -/
def _setBaseSchema (schemas : SchemasModule) (schema : String) (d : MantraData) : MantraData :=
  { d with schema := objGet schemas schema }

/-- `_updatePath`: concatenate the segment onto `path`, dot-separated. -/
def _updatePath (path : String) (d : MantraData) : MantraData :=
  let IS_PATH_EMPTY := d.path == ""
  let separator := if IS_PATH_EMPTY then "" else "."
  { d with path := d.path ++ separator ++ path }

/-- `_trimPath`: `this._path = this._path.replace(new RegExp(`(path).?`, 'g'), '')`. -/
def _trimPath (path : String) (d : MantraData) : MantraData :=
  { d with _path := jsReplaceTrim path d._path }

/-- `updatePath`. -/
def updatePath (path : String) (d : MantraData) : MantraData :=
  _trimPath path (_updatePath path d)

/-- `setBase`. -/
def setBase (schemas : SchemasModule) (d : MantraData) : Except JsError MantraData :=
  let name := getFirstPath d._path
  if !(_isSchema schemas name) then
    .error (.error ("The " ++ name ++ " schema was not found"))
  else
    .ok (updatePath name (_setBaseSchema schemas name (_setName name d)))

/-- `_isRelationship` (reading `this.schema.relationships` throws a
`TypeError` when `schema` is still `null`). -/
def _isRelationship (name : String) (d : MantraData) : Except JsError Bool :=
  match d.schema with
  | none => .error .typeError
  | some s =>
    match s.relationships with
    | none => .ok false
    | some relationships => .ok (relationships.any (fun rel => rel.name == name))

/-- `_addParent`. -/
def _addParent (entity : Parent) (d : MantraData) : MantraData :=
  { d with parents := d.parents ++ [entity] }

/-- `_resetId`. -/
def _resetId (d : MantraData) : MantraData :=
  { d with id := "" }

/-- `_setRelationshipSchema`: `Array.prototype.find` returns `undefined` when
nothing matches, hence the `Option`-valued `schema`. -/
def _setRelationshipSchema (name : String) (d : MantraData) : Except JsError MantraData :=
  match d.schema with
  | none => .error .typeError
  | some s =>
    match s.relationships with
    | none => .error .typeError
    | some relationships =>
      .ok { d with schema := relationships.find? (fun rel => rel.name == name) }

/-- `_setRelationship`. -/
def _setRelationship (name : String) (d : MantraData) : Except JsError MantraData := do
  let parentEntity : Parent := { schema := d.schema, name := d.name, id := d.id }
  let d := _addParent parentEntity d
  let d := _setName name d
  let d ← _setRelationshipSchema name d
  let d := _resetId d
  return updatePath name d

/-- `_isId`: `value === null` is `false` for every string, so only the
`Number.isNaN(Number(value))` test is live. -/
def _isId (value : String) : Bool :=
  let isNull := false
  let is_nan := jsNumberIsNaN value
  !is_nan && !isNull

/-- `_setId`: note it trims `_path` but never touches `path`. -/
def _setId (id : String) (d : MantraData) : MantraData :=
  _trimPath id { d with id := id }

/-- The `for … of arrPath` loop body of `setRecord`, over the list of
segments computed once at entry. -/
def setRecordLoop : List String → MantraData → Except JsError MantraData
  | [], d => .ok d
  | name :: rest, d => do
    if (← _isRelationship name d) then
      setRecordLoop rest (← _setRelationship name d)
    else if _isId name then
      setRecordLoop rest (_setId name d)
    else
      return d

/-- `setRecord`. -/
def setRecord (d : MantraData) : Except JsError MantraData :=
  setRecordLoop (jsSplit '.' d._path) d

/-- `DEFAULT_ACTIONS.create`. -/
def DEFAULT_ACTIONS_create : ActionDescriptor := { name := "create", needFetch := false }

/-- `DEFAULT_ACTIONS.update`. -/
def DEFAULT_ACTIONS_update : ActionDescriptor := { name := "update", needFetch := true }

/-- `_isCustomAction`: destructuring `[action = ''] = this._path.split('.')`
always yields the first member of the split, since a split is never empty. -/
def _isCustomAction (d : MantraData) : Except JsError Bool :=
  let action := (jsSplit '.' d._path).headD ""
  match d.schema with
  | none => .error .typeError
  | some s =>
    match s.actions with
    | none => .ok false
    | some actions => .ok (objHas actions action)

/-- `_getCustomAction`. -/
def _getCustomAction (d : MantraData) : Except JsError (Option ActionDescriptor) :=
  let action := (jsSplit '.' d._path).headD ""
  match d.schema with
  | none => .error .typeError
  | some s =>
    match s.actions with
    | none => .error .typeError
    | some actions => .ok (objGet actions action)

/-- `_isUpdateAction`. -/
def _isUpdateAction (d : MantraData) : Bool := d.id != ""

/-- `_getDefaultAction`. -/
def _getDefaultAction (d : MantraData) : ActionDescriptor :=
  if _isUpdateAction d then DEFAULT_ACTIONS_update else DEFAULT_ACTIONS_create

/-- `_getAction`. -/
def _getAction (d : MantraData) : Except JsError (Option ActionDescriptor) := do
  if (← _isCustomAction d) then
    _getCustomAction d
  else
    return some (_getDefaultAction d)

/-- `setAction`. -/
def setAction (d : MantraData) : Except JsError MantraData := do
  return { d with action := (← _getAction d) }

/-- `getEndpoint`: `this.path.replace(/[.]/g, '/')`. -/
def getEndpoint (d : MantraData) : String :=
  mapChars (fun c => if c = '.' then '/' else c) d.path

/-- Truthiness of an optional JS string: `undefined` and `''` are falsy. -/
def truthyStr : Option String → Bool
  | none => false
  | some s => s != ""

/-- `getAlias`: dereferences `this.component.model` unconditionally; the
fallback replaces every slash of the endpoint by a hyphen. -/
def getAlias (d : MantraData) : Except JsError String :=
  match d.component.model with
  | none => .error .typeError
  | some model =>
    if truthyStr model.name then .ok (model.name.getD "")
    else .ok (mapChars (fun c => if c = '/' then '-' else c) d.endpoint)

/-- `setAlias`. -/
def setAlias (d : MantraData) : Except JsError MantraData := do
  return { d with aliasName := (← getAlias d) }

/-- `setEndpoint`: assigns `endpoint`, then `setAlias`. -/
def setEndpoint (d : MantraData) : Except JsError MantraData :=
  setAlias { d with endpoint := getEndpoint d }

/-- `isValid`. -/
def isValid (d : MantraData) : Except JsError Bool :=
  let isEmpty := d._path == ""
  if !isEmpty then .error (.error "Configuration path was not completely resolved")
  else .ok true

/-! ## Concrete fixtures for evaluation and witnesses -/

/-- A `posts` schema with one declared custom action. -/
def postsSchema : Schema :=
  .mk "posts" none (some [("create", { name := "create", needFetch := false })])

/-- A `users` schema with the single relationship `posts`. -/
def usersSchema : Schema := .mk "users" (some [postsSchema]) none

/-- A registry holding only the root schema `users`. -/
def demoRegistry : SchemasModule := [("users", usersSchema)]

/-- A context about to undergo Action Resolution: `posts` schema in focus,
remaining path `"create"`. -/
def actionDemoData : MantraData :=
  { MantraData.init "create" with schema := some postsSchema }

/-! ## Helper lemmas about the string model -/

theorem startsWithL_append (p t : List Char) : startsWithL p (p ++ t) = true := by
  induction p with
  | nil => rfl
  | cons c cs ih => simp [startsWithL, ih]

theorem splitList_ne_nil (sep : Char) (l : List Char) : splitList sep l ≠ [] := by
  cases l with
  | nil => simp [splitList]
  | cons c rest =>
    cases hs : splitList sep rest with
    | nil => simp [splitList, hs]
    | cons a t =>
      simp only [splitList, hs]
      split <;> simp

theorem splitList_sep_append (sep : Char) (s rest : List Char) (h : sep ∉ s) :
    splitList sep (s ++ sep :: rest) = s :: splitList sep rest := by
  induction s with
  | nil =>
    cases hs : splitList sep rest with
    | nil => exact absurd hs (splitList_ne_nil sep rest)
    | cons a t => simp [splitList, hs]
  | cons c cs ih =>
    have hc : c ≠ sep := fun e => h (e ▸ List.mem_cons_self c cs)
    have hcs : sep ∉ cs := fun m => h (List.mem_cons_of_mem c m)
    cases hs : splitList sep (cs ++ sep :: rest) with
    | nil => exact absurd hs (splitList_ne_nil sep _)
    | cons a t =>
      have := ih hcs
      rw [hs] at this
      cases this
      simp [splitList, hs, hc]

theorem splitList_no_sep (sep : Char) (s : List Char) (h : sep ∉ s) :
    splitList sep s = [s] := by
  induction s with
  | nil => rfl
  | cons c cs ih =>
    have hc : c ≠ sep := fun e => h (e ▸ List.mem_cons_self c cs)
    have : splitList sep cs = [cs] := ih (fun m => h (List.mem_cons_of_mem c m))
    simp [splitList, this, hc]

theorem getFirstPath_mk_sep (s rest : List Char) (h : '.' ∉ s) :
    getFirstPath (String.mk (s ++ '.' :: rest)) = String.mk s := by
  unfold getFirstPath jsSplit
  rw [show (String.mk (s ++ '.' :: rest)).data = s ++ '.' :: rest from rfl,
    splitList_sep_append '.' s rest h]
  rfl

theorem getFirstPath_mk_no_sep (s : List Char) (h : '.' ∉ s) :
    getFirstPath (String.mk s) = String.mk s := by
  unfold getFirstPath jsSplit
  rw [show (String.mk s).data = s from rfl, splitList_no_sep '.' s h]
  rfl

theorem trimAuxF_no_occ (p : Char) (ps : List Char) :
    ∀ (n : Nat) (l : List Char), l.length ≤ n → substrOccurs (p :: ps) l = false →
      trimAuxF (p :: ps) n l = l := by
  intro n
  induction n with
  | zero =>
    intro l hl _
    have : l = [] := List.length_eq_zero.mp (Nat.le_zero.mp hl)
    subst this
    rfl
  | succ n ih =>
    intro l hl hocc
    cases l with
    | nil => rfl
    | cons c cs =>
      simp only [substrOccurs, Bool.or_eq_false_iff] at hocc
      simp only [trimAuxF, hocc.1, Bool.false_eq_true, if_false]
      rw [ih cs (Nat.le_of_succ_le_succ hl) hocc.2]

theorem trimAuxF_consume (p : Char) (ps rest : List Char) (n : Nat)
    (hn : (p :: ps ++ '.' :: rest).length ≤ n)
    (hocc : substrOccurs (p :: ps) rest = false) :
    trimAuxF (p :: ps) n (p :: ps ++ '.' :: rest) = rest := by
  cases n with
  | zero => simp at hn
  | succ m =>
    have hsw : startsWithL (p :: ps) (p :: (ps ++ '.' :: rest)) = true := startsWithL_append _ _
    have hdrop : (p :: (ps ++ '.' :: rest)).drop (p :: ps).length = '.' :: rest := by
      simp [List.drop_left]
    simp only [List.cons_append] at hn ⊢
    simp only [trimAuxF, hsw, if_true, hdrop]
    have hdot : jsDotChar '.' = true := by decide
    simp only [hdot, if_true]
    refine trimAuxF_no_occ p ps m rest ?_ hocc
    simp only [List.length_cons, List.length_append] at hn
    omega

theorem trimAuxF_exact (p : Char) (ps : List Char) (n : Nat)
    (hn : (p :: ps).length ≤ n) :
    trimAuxF (p :: ps) n (p :: ps) = [] := by
  cases n with
  | zero => simp at hn
  | succ m =>
    have hsw : startsWithL (p :: ps) (p :: ps) = true := by
      have := startsWithL_append (p :: ps) []
      simpa using this
    have hdrop : (p :: ps).drop (p :: ps).length = ([] : List Char) := List.drop_length _
    simp only [trimAuxF, hsw, if_true, hdrop]

theorem jsReplaceTrim_consume (s rest : List Char) (hs : s ≠ [])
    (hocc : substrOccurs s rest = false) :
    jsReplaceTrim (String.mk s) (String.mk (s ++ '.' :: rest)) = String.mk rest := by
  cases s with
  | nil => exact absurd rfl hs
  | cons p ps =>
    unfold jsReplaceTrim
    congr 1
    exact trimAuxF_consume p ps rest _ (Nat.le_refl _) hocc

theorem jsReplaceTrim_exact (s : List Char) (hs : s ≠ []) :
    jsReplaceTrim (String.mk s) (String.mk s) = "" := by
  cases s with
  | nil => exact absurd rfl hs
  | cons p ps =>
    unfold jsReplaceTrim
    show String.mk (trimAuxF (p :: ps) (p :: ps).length (p :: ps)) = ""
    rw [trimAuxF_exact p ps _ (Nat.le_refl _)]

/-! ## Helper lemmas about the `Number` coercion model -/

theorem decDigit_not_space (c : Char) (h : decDigit c = true) : isJsSpace c = false := by
  simp only [decDigit, Bool.and_eq_true, decide_eq_true_eq] at h
  simp only [isJsSpace, Bool.or_eq_false_iff, beq_eq_false_iff_ne]
  omega

theorem decDigit_not_sign (c : Char) (h : decDigit c = true) :
    (c == '+' || c == '-') = false := by
  simp only [decDigit, Bool.and_eq_true, decide_eq_true_eq] at h
  simp only [Bool.or_eq_false_iff, beq_eq_false_iff_ne]
  constructor <;> (rintro rfl; revert h; decide)

theorem jsTrim_all_not_space (l : List Char) (h : ∀ c ∈ l, isJsSpace c = false) :
    jsTrim l = l := by
  unfold jsTrim
  have h1 : l.dropWhile isJsSpace = l := by
    cases l with
    | nil => rfl
    | cons c cs => simp [List.dropWhile_cons, h c (List.mem_cons_self c cs)]
  rw [h1]
  have h2 : l.reverse.dropWhile isJsSpace = l.reverse := by
    cases hr : l.reverse with
    | nil => rfl
    | cons d ds =>
      have hd : d ∈ l := by
        rw [← List.mem_reverse, hr]
        exact List.mem_cons_self d ds
      simp [List.dropWhile_cons, h d hd]
  rw [h2, List.reverse_reverse]

theorem digits_numeric (c : Char) (cs : List Char)
    (hd : ∀ x ∈ c :: cs, decDigit x = true) :
    isStrNumericLiteral (c :: cs) = true := by
  have hdec : isDecNumber (c :: cs) = true := by
    have hdw : (c :: cs).dropWhile decDigit = [] :=
      List.dropWhile_eq_nil_iff.mpr hd
    have hc : decDigit c = true := hd c (List.mem_cons_self c cs)
    simp [isDecNumber, hdw, hc, isExpPartOk]
  have hsd : isSignedDec (c :: cs) = true := by
    simp only [isSignedDec, decDigit_not_sign c (hd c (List.mem_cons_self c cs)),
      Bool.false_eq_true, if_false]
    simp [isUnsignedDec, hdec]
  simp [isStrNumericLiteral, hsd]

theorem objGet_isSome {α : Type} (o : JsObj α) (k : String) :
    (objGet o k).isSome = objHas o k := by
  unfold objGet objHas
  cases o.find? (fun p => p.1 == k) <;> rfl

/-! ## Claim theorems -/

/-- C1: the claim fails on the code.  Resolving `"users.5"` removes both
`"users"` and `"5"` from `remainingPath`, but appends only `"users"` to
`resolvedPath`: `_setId` trims `_path` without ever updating `path`,
contrary to its own doc comment ("Updates the path property and trimms the
_path property"), so the resolved path drops every id segment. -/
theorem resolvedPath_drops_consumed_id :
    (setBase demoRegistry (MantraData.init "users.5") >>= setRecord).map
      (fun d => (d.path, d._path, d.id)) = Except.ok ("users", "", "5") := rfl

/-- C2: the stop clause fails on the code.  On `"users.5.5x"` scanning stops
at `"5x"` without consuming it, yet `"5x"` is no longer in `remainingPath`:
trimming the id `"5"` used a global regex that also deleted the `"5"`
inside `"5x"` together with its following character, so validation then
succeeds and the unmatched segment is silently lost. -/
theorem chain_stop_segment_silently_deleted :
    ((setBase demoRegistry (MantraData.init "users.5.5x") >>= setRecord).map
        (fun d => (d._path, d.id)) = Except.ok ("", "5"))
  ∧ ((setBase demoRegistry (MantraData.init "users.5.5x") >>= setRecord >>= isValid) =
        Except.ok true) :=
  ⟨rfl, rfl⟩

/-- C3: Base Resolution fails with an error naming the first dot-separated
segment iff the Schema Registry owns no schema under exactly that name;
otherwise it binds `schema` to the registry's schema for that name, binds
`name` to the segment, appends the segment to the resolved path and consumes
the segment together with its separator from the remaining path.  The
segment is assumed non-empty, free of regex syntax characters (so the
pattern `_trimPath` interpolates it into matches it literally, which the
trim model requires), and without a second occurrence in the rest of the
path (what the trim does to repeated occurrences is the subject of C1);
being regex-literal it is in particular dot-free, as every split field is. -/
theorem setBase_base_resolution (schemas : SchemasModule) (d : MantraData)
    (s rest : List Char)
    (hpath : d._path = String.mk (s ++ '.' :: rest) ∨ (d._path = String.mk s ∧ rest = []))
    (hs : s ≠ []) (hlit : ∀ c ∈ s, regexLiteralChar c = true)
    (hocc : substrOccurs s rest = false) :
    (objHas schemas (String.mk s) = false →
        setBase schemas d =
          .error (.error ("The " ++ String.mk s ++ " schema was not found")))
  ∧ (objHas schemas (String.mk s) = true →
        setBase schemas d =
          .ok { d with name := String.mk s,
                       schema := objGet schemas (String.mk s),
                       path := d.path ++ (if d.path == "" then "" else ".") ++ String.mk s,
                       _path := String.mk rest }) := by
  have hdot : '.' ∉ s := fun hm => by
    have h := hlit '.' hm
    exact absurd h (by decide)
  have hfirst : getFirstPath d._path = String.mk s := by
    rcases hpath with h | ⟨h, -⟩
    · rw [h]; exact getFirstPath_mk_sep s rest hdot
    · rw [h]; exact getFirstPath_mk_no_sep s hdot
  have htrim : jsReplaceTrim (String.mk s) d._path = String.mk rest := by
    rcases hpath with h | ⟨h, hr⟩
    · rw [h]; exact jsReplaceTrim_consume s rest hs hocc
    · rw [h, hr]; exact jsReplaceTrim_exact s hs
  constructor
  · intro hno
    simp [setBase, hfirst, _isSchema, hno]
  · intro hyes
    simp [setBase, hfirst, _isSchema, hyes, updatePath, _trimPath, _updatePath,
      _setBaseSchema, _setName, htrim]

/-- C3 witness: with an empty registry, resolving `"users.5"` raises the
schema-not-found error; with the demo registry it binds the fields and
consumes the first segment. -/
theorem setBase_base_resolution_witness :
    (setBase [] (MantraData.init "users.5") =
        .error (.error "The users schema was not found"))
  ∧ (setBase demoRegistry (MantraData.init "users.5") =
        .ok { MantraData.init "users.5" with
              name := "users", schema := objGet demoRegistry "users",
              path := "users", _path := "5" }) := by
  constructor
  · exact (setBase_base_resolution [] (MantraData.init "users.5") "users".data "5".data
      (Or.inl (by decide)) (by decide) (by decide)
      (by decide)).1 (by decide)
  · exact (setBase_base_resolution demoRegistry (MantraData.init "users.5") "users".data
      "5".data (Or.inl (by decide)) (by decide) (by decide)
      (by decide)).2 (by decide)

/-- C4: the id predicate equals "numeric coercion is not NaN" (the
`value === null` test is vacuously false for strings); it accepts every
digit-only segment including `"0"`, accepts the empty string (which coerces
to `0`), and rejects `"null"` and `"posts"`. -/
theorem isId_characterization :
    (∀ value : String, _isId value = !(jsNumberIsNaN value))
  ∧ (∀ value : String, value.data ≠ [] → (∀ c ∈ value.data, decDigit c = true) →
      _isId value = true)
  ∧ (_isId "0" = true ∧ _isId "" = true ∧ _isId "null" = false ∧ _isId "posts" = false) := by
  refine ⟨?_, ?_, by decide, by decide, by decide, by decide⟩
  · intro value
    simp [_isId]
  · intro value hne hd
    cases hv : value.data with
    | nil => exact absurd hv hne
    | cons c cs =>
      rw [hv] at hd
      have hsp : ∀ x ∈ c :: cs, isJsSpace x = false :=
        fun x hx => decDigit_not_space x (hd x hx)
      simp [_isId, jsNumberIsNaN, hv, jsTrim_all_not_space _ hsp, digits_numeric c cs hd]

/-- C4 witness: the digit-only clause applied to the segment `"12345"`. -/
theorem isId_characterization_witness : _isId "12345" = true :=
  isId_characterization.2.1 "12345" (by decide) (by decide)

/-- C5: `setAction` binds `action` to the descriptor stored under the first
remaining segment when the current schema's `actions` object exists and owns
that key, and otherwise binds the built-in default — `update` when the
captured id is non-empty, else `create` — with the built-ins carrying
`needFetch = true` and `needFetch = false` respectively. -/
theorem setAction_selects_custom_or_default (d : MantraData) (s : Schema)
    (hschema : d.schema = some s) :
    (∀ acts, s.actions = some acts →
        objHas acts ((jsSplit '.' d._path).headD "") = true →
        setAction d = .ok { d with action := objGet acts ((jsSplit '.' d._path).headD "") } ∧
        (objGet acts ((jsSplit '.' d._path).headD "")).isSome = true)
  ∧ ((s.actions = none ∨ ∃ acts, s.actions = some acts ∧
        objHas acts ((jsSplit '.' d._path).headD "") = false) →
        setAction d =
          .ok { d with
                action := some (if d.id = "" then DEFAULT_ACTIONS_create
                  else DEFAULT_ACTIONS_update) })
  ∧ (DEFAULT_ACTIONS_update.needFetch = true ∧ DEFAULT_ACTIONS_create.needFetch = false) := by
  refine ⟨?_, ?_, rfl, rfl⟩
  · intro acts hacts hhas
    refine ⟨?_, by rw [objGet_isSome, hhas]⟩
    have hhas' : objHas acts ((jsSplit '.' d._path).head?.getD "") = true := by
      simpa using hhas
    simp [setAction, _getAction, _isCustomAction, _getCustomAction, hschema, hacts, hhas',
      Bind.bind, Except.bind, pure, Except.pure]
  · intro hdef
    have hdefault : _getDefaultAction d =
        (if d.id = "" then DEFAULT_ACTIONS_create else DEFAULT_ACTIONS_update) := by
      by_cases hid : d.id = "" <;>
        simp [_getDefaultAction, _isUpdateAction, hid]
    rcases hdef with hnone | ⟨acts, hacts, hhas⟩
    · simp [setAction, _getAction, _isCustomAction, hschema, hnone, hdefault,
        Bind.bind, Except.bind, pure, Except.pure]
    · have hhas' : objHas acts ((jsSplit '.' d._path).head?.getD "") = false := by
        simpa using hhas
      simp [setAction, _getAction, _isCustomAction, hschema, hacts, hhas', hdefault,
        Bind.bind, Except.bind, pure, Except.pure]

/-- C5 witness: with the remaining path `"create"` and the `posts` schema the
declared custom action is bound; with an empty remaining path, the `users`
schema (no actions) and a captured id, the default `update` is bound. -/
theorem setAction_selects_custom_or_default_witness :
    (setAction { MantraData.init "create" with schema := some postsSchema, id := "5" } =
        .ok { MantraData.init "create" with
              schema := some postsSchema, id := "5",
              action := some { name := "create", needFetch := false } })
  ∧ (setAction { MantraData.init "" with schema := some usersSchema, id := "5" } =
        .ok { MantraData.init "" with
              schema := some usersSchema, id := "5",
              action := some DEFAULT_ACTIONS_update }) := by
  constructor
  · exact ((setAction_selects_custom_or_default _ postsSchema rfl).1
      [("create", { name := "create", needFetch := false })] rfl (by decide)).1
  · exact (setAction_selects_custom_or_default _ usersSchema rfl).2.1 (Or.inl rfl)

/-- C6: Action Resolution mutates only the `action` field: whenever
`setAction` returns a context, every other field — including the remaining
path, from which a matched custom-action segment is not removed — is
unchanged. -/
theorem setAction_frame (d d' : MantraData) (h : setAction d = .ok d') :
    d'._path = d._path ∧ d'.path = d.path ∧ d'.schema = d.schema ∧ d'.name = d.name ∧
    d'.id = d.id ∧ d'.parents = d.parents ∧ d'.endpoint = d.endpoint ∧
    d'.aliasName = d.aliasName ∧ d'.component = d.component := by
  unfold setAction at h
  cases hg : _getAction d with
  | error e =>
    rw [hg] at h
    simp [Bind.bind, Except.bind] at h
  | ok a =>
    rw [hg] at h
    simp only [Bind.bind, Except.bind, pure, Except.pure, Except.ok.injEq] at h
    subst h
    exact ⟨rfl, rfl, rfl, rfl, rfl, rfl, rfl, rfl, rfl⟩

/-- C6 witness: the frame property applied at a concrete context whose action
resolution matches the custom `create` action, showing in particular that
the matched segment stays in the remaining path. -/
theorem setAction_frame_witness :
    ({ actionDemoData with
        action := some { name := "create", needFetch := false } } : MantraData)._path =
      actionDemoData._path :=
  (setAction_frame actionDemoData
    { actionDemoData with action := some { name := "create", needFetch := false } } rfl).1

/-- C7: after all phases, `isValid` throws the error "Configuration path was
not completely resolved" exactly when `_path` is non-empty, and returns
`true` when it is empty. -/
theorem isValid_unresolved_path (d : MantraData) :
    (d._path ≠ "" →
        isValid d = .error (.error "Configuration path was not completely resolved"))
  ∧ (d._path = "" → isValid d = .ok true) := by
  constructor
  · intro h
    simp [isValid, h]
  · intro h
    simp [isValid, h]

/-- C7 witness: a leftover segment raises the error; an empty remaining path
validates. -/
theorem isValid_unresolved_path_witness :
    (isValid (MantraData.init "junk") =
        .error (.error "Configuration path was not completely resolved"))
  ∧ isValid (MantraData.init "") = .ok true :=
  ⟨(isValid_unresolved_path (MantraData.init "junk")).1 (by decide),
   (isValid_unresolved_path (MantraData.init "")).2 rfl⟩

/-- C8 counterexample: the claim promises the hyphenated-endpoint fallback
whenever the component does not report a model name, but with `model`
undefined (`component = {}`) endpoint/alias derivation throws a `TypeError`
instead of binding any alias. -/
theorem alias_fallback_counterexample :
    setEndpoint { MantraData.init "" with path := "users.5" } =
      .error .typeError := rfl

/-- C8 (amended): `setEndpoint` sets `endpoint` to `resolvedPath` with every
dot replaced by a slash; the alias is the component's model name verbatim
when the model exists and its name is truthy; the slash-to-hyphen fallback
applies only when the model exists but its name is falsy (`undefined` or
empty); and when the component's model is `undefined` the derivation throws
a `TypeError` instead of falling back. -/
theorem setEndpoint_alias_amended (d : MantraData) :
    (∀ m nm, d.component.model = some m → m.name = some nm → nm ≠ "" →
        setEndpoint d =
          .ok { d with endpoint := mapChars (fun c => if c = '.' then '/' else c) d.path,
                       aliasName := nm })
  ∧ (∀ m, d.component.model = some m → (m.name = none ∨ m.name = some "") →
        setEndpoint d =
          .ok { d with endpoint := mapChars (fun c => if c = '.' then '/' else c) d.path,
                       aliasName := mapChars (fun c => if c = '/' then '-' else c)
                         (mapChars (fun c => if c = '.' then '/' else c) d.path) })
  ∧ (d.component.model = none → setEndpoint d = .error .typeError) := by
  refine ⟨?_, ?_, ?_⟩
  · intro m nm hm hname hne
    simp [setEndpoint, setAlias, getAlias, getEndpoint, hm, hname, truthyStr, hne,
      Bind.bind, Except.bind, pure, Except.pure]
  · intro m hm hname
    rcases hname with h | h <;>
      simp [setEndpoint, setAlias, getAlias, getEndpoint, hm, h, truthyStr,
        Bind.bind, Except.bind, pure, Except.pure]
  · intro hm
    simp [setEndpoint, setAlias, getAlias, hm, Bind.bind, Except.bind]

/-- C8 witness: a model named `"Widget"` wins over derivation; a model with a
falsy name falls back to the hyphenated endpoint. -/
theorem setEndpoint_alias_amended_witness :
    (setEndpoint { MantraData.init "" with
                   path := "users.5",
                   component := { model := some { name := some "Widget" }, hasModel := true } } =
      .ok { MantraData.init "" with
            path := "users.5",
            component := { model := some { name := some "Widget" }, hasModel := true },
            endpoint := "users/5", aliasName := "Widget" })
  ∧ (setEndpoint { MantraData.init "" with
                   path := "users.5",
                   component := { model := some { name := none }, hasModel := true } } =
      .ok { MantraData.init "" with
            path := "users.5",
            component := { model := some { name := none }, hasModel := true },
            endpoint := "users/5", aliasName := "users-5" }) :=
  ⟨(setEndpoint_alias_amended _).1 { name := some "Widget" } "Widget" rfl rfl (by decide),
   (setEndpoint_alias_amended _).2.1 { name := none } rfl (Or.inl rfl)⟩

/-- C9: the round-trip claim fails on the code.  The path
`"users.5.posts.7"` alternates relationship names and valid ids along the
demo registry's relationship graph, yet after Base and Chain Resolution the
resolved path is `"users.posts"` — id segments are consumed from the
remaining path but never appended to the resolved path — so the dot-joined
resolved path does not reproduce the input (the remaining path is indeed
empty here). -/
theorem roundtrip_fails_on_alternating_path :
    ((setBase demoRegistry (MantraData.init "users.5.posts.7") >>= setRecord).map
        (fun d => (d.path, d._path)) = Except.ok ("users.posts", ""))
  ∧ ((setBase demoRegistry (MantraData.init "users.5.posts.7") >>= setRecord).map
        (fun d => d.path) ≠ Except.ok "users.5.posts.7") := by
  refine ⟨rfl, ?_⟩
  intro h
  have h' : Except.ok (ε := JsError) "users.posts" = Except.ok "users.5.posts.7" :=
    (rfl : (setBase demoRegistry (MantraData.init "users.5.posts.7") >>= setRecord).map
        (fun d => d.path) = Except.ok "users.posts").symm.trans h
  simp at h'

/-- C10: `getAlias` dereferences `component.model` unconditionally — it
throws a `TypeError` exactly when the model is `undefined`, never consults
the `hasModel` flag, and reaches the hyphenated-endpoint fallback only when
the model exists but its name is falsy. -/
theorem getAlias_partial_at_model (d : MantraData) :
    (getAlias d = .error .typeError ↔ d.component.model = none)
  ∧ (∀ b : Bool,
      getAlias { d with component := { model := d.component.model, hasModel := b } } =
        getAlias d)
  ∧ (∀ m, d.component.model = some m → (m.name = none ∨ m.name = some "") →
      getAlias d = .ok (mapChars (fun c => if c = '/' then '-' else c) d.endpoint)) := by
  refine ⟨?_, ?_, ?_⟩
  · cases hm : d.component.model with
    | none => simp [getAlias, hm]
    | some m =>
      simp only [getAlias, hm]
      split <;> simp
  · intro b
    rfl
  · intro m hm hname
    rcases hname with h | h <;> simp [getAlias, hm, h, truthyStr]

/-- C10 witness: on an unmodelled component `getAlias` throws; with a model
whose name is `undefined` it returns the hyphenated endpoint. -/
theorem getAlias_partial_at_model_witness :
    (getAlias { MantraData.init "" with endpoint := "users/5" } = .error .typeError)
  ∧ (getAlias { MantraData.init "" with
                endpoint := "users/5",
                component := { model := some { name := none }, hasModel := true } } =
      .ok "users-5") :=
  ⟨(getAlias_partial_at_model { MantraData.init "" with endpoint := "users/5" }).1.mpr rfl,
   (getAlias_partial_at_model { MantraData.init "" with
      endpoint := "users/5",
      component := { model := some { name := none }, hasModel := true } }).2.2
      { name := none } rfl (Or.inl rfl)⟩

end Mantra

